import Mathlib

/-!
Shallow embedding of the `tracing-xray` repository (src/types/{header,ids,time,types}.rs).

Rust strings are byte strings; we model them as `List Char`, one `Char` per byte unit,
so `len`, slicing and `split` act on units exactly as the byte-oriented Rust code does.
Wall-clock reads (`Seconds::now()`) and random identifier generation
(`TraceId::new()`, `SegmentId::new()`) are nondeterministic inputs of the program;
the embedding passes their results in as explicit parameters.
-/

set_option maxRecDepth 8000

/-- A Rust string, one `Char` per byte unit. -/
abbrev Str := List Char

/-- Rust `str::split(sep)`: splits on every occurrence of `sep`; the empty string
yields one empty piece, adjacent separators yield empty pieces. -/
def splitOnChar (sep : Char) : Str → List Str
  | [] => [[]]
  | c :: rest =>
      match splitOnChar sep rest with
      | [] => [[c]]
      | piece :: more => if c = sep then [] :: piece :: more else (c :: piece) :: more

/-- Rust `str::find(c)`: byte index of the first occurrence of `c`. -/
def findChar (c : Char) : Str → Option Nat
  | [] => none
  | x :: rest => if x = c then some 0 else (findChar c rest).map (· + 1)

/-- `SamplingDecision` from src/types/header.rs. -/
inductive SamplingDecisionM
  | Sampled
  | NotSampled
  | Requested
  | Unknown
deriving DecidableEq

/-- `impl From<&str> for SamplingDecision` (header.rs lines 27-36). -/
def samplingFrom (value : Str) : SamplingDecisionM :=
  if value = "Sampled=1".toList then .Sampled
  else if value = "Sampled=0".toList then .NotSampled
  else if value = "Sampled=?".toList then .Requested
  else .Unknown

/-- `impl Display for SamplingDecision` (header.rs lines 38-52). -/
def samplingDisplay : SamplingDecisionM → Str
  | .Sampled => "Sampled=1".toList
  | .NotSampled => "Sampled=0".toList
  | .Requested => "Sampled=?".toList
  | .Unknown => []

/-- One lowercase hex digit, as produced by Rust `{:x}` formatting. -/
def hexDigit (n : Nat) : Char :=
  if n < 10 then Char.ofNat (48 + n) else Char.ofNat (87 + n)

/-- Fuelled most-significant-first hex digit expansion; with fuel above `n`
this is the full digit string Rust `{:x}` prints for `n`. -/
def hexDigitsAux : Nat → Nat → Str
  | 0, _ => []
  | fuel + 1, n =>
      if n < 16 then [hexDigit n] else hexDigitsAux fuel (n / 16) ++ [hexDigit (n % 16)]

/-- All hex digits of `n`, lowercase, no leading zeros (except `0` itself). -/
def natToHex (n : Nat) : Str := hexDigitsAux (n + 1) n

/-- Rust zero-padding to a minimum field width, as in `{:08x}` / `{:02x}`:
pads on the left, never truncates. -/
def lpad (w : Nat) (c : Char) (s : Str) : Str := List.replicate (w - s.length) c ++ s

/-- `impl LowerHex for Bytes` (types.rs lines 319-326): each byte as `{:02x}`. -/
def bytesHex : List Nat → Str
  | [] => []
  | b :: rest => lpad 2 '0' (natToHex b) ++ bytesHex rest

/-- `TraceId` from src/types/ids.rs: locally generated (`New`) carries the
truncated epoch seconds and 12 random bytes; `Rendered` is an external string. -/
inductive TraceIdM
  | New (seconds : Nat) (bytes : List Nat)
  | Rendered (value : Str)
deriving DecidableEq

/-- `impl Display for TraceId` (ids.rs lines 97-104): `1-{:08x}-{:x}`. -/
def TraceIdM.display : TraceIdM → Str
  | .New secs bytes => "1-".toList ++ lpad 8 '0' (natToHex secs) ++ "-".toList ++ bytesHex bytes
  | .Rendered v => v

/-- `SegmentId` from src/types/ids.rs: 8 random bytes or an external string. -/
inductive SegmentIdM
  | New (bytes : List Nat)
  | Rendered (value : Str)
deriving DecidableEq

/-- `impl Display for SegmentId` (ids.rs lines 24-31). -/
def SegmentIdM.display : SegmentIdM → Str
  | .New bytes => bytesHex bytes
  | .Rendered v => v

/-- `Header` from src/types/header.rs; `additional_data` models the
`HashMap<String, String>` as an association list with replace-on-insert. -/
structure HeaderM where
  trace_id : TraceIdM
  parent_id : Option SegmentIdM
  sampling_decision : SamplingDecisionM
  additional_data : List (Str × Str)
deriving DecidableEq

/-- `Header::default()`: `TraceId::default()` generates a fresh random id,
passed here as the parameter `fresh`; the other fields default to
none / Unknown / empty map. -/
def headerDefault (fresh : TraceIdM) : HeaderM :=
  { trace_id := fresh, parent_id := none, sampling_decision := .Unknown, additional_data := [] }

/-- `HashMap::insert`: replaces the value when the key is present, else adds. -/
def mapInsert (k v : Str) : List (Str × Str) → List (Str × Str)
  | [] => [(k, v)]
  | (k2, v2) :: rest => if k2 = k then (k, v) :: rest else (k2, v2) :: mapInsert k v rest

/-- `Result<Header, String>` for the header parser. -/
inductive HRes
  | ok (h : HeaderM)
  | err (msg : Str)
deriving DecidableEq

def rootKey : Str := "Root=".toList

def parentKey : Str := "Parent=".toList

def sampledKey : Str := "Sampled=".toList

def selfKey : Str := "Self=".toList

/-- Rust `str::starts_with(prefix)`: `startsWithPre p s` is true when `s`
begins with the units of `p`. -/
def startsWithPre (p s : Str) : Bool :=
  match p with
  | [] => true
  | pc :: prest =>
      match s with
      | [] => false
      | sc :: srest => (sc == pc) && startsWithPre prest srest

/-- The error message built at header.rs line 116: note the Rust code formats
the WHOLE input `s` into the message, not just the offending line. -/
def noEqMsg (s : Str) : Str :=
  "invalid key=value: no `=` found in `".toList ++ s ++ "`".toList

/-- The body of the `try_fold` closure in `Header::from_str`
(header.rs lines 106-120), acting on one `;`-separated line. -/
def headerStep (s : Str) (h : HeaderM) (line : Str) : HRes :=
  if startsWithPre rootKey line then
    .ok { h with trace_id := .Rendered (line.drop 5) }
  else if startsWithPre parentKey line then
    .ok { h with parent_id := some (.Rendered (line.drop 7)) }
  else if startsWithPre sampledKey line then
    .ok { h with sampling_decision := samplingFrom line }
  else if startsWithPre selfKey line then
    .ok h
  else
    match findChar '=' line with
    | none => .err (noEqMsg s)
    | some pos =>
        .ok { h with additional_data := mapInsert (line.take pos) (line.drop (pos + 1)) h.additional_data }

/-- `Iterator::try_fold` over the split lines: stops at the first error. -/
def headerFold (s : Str) (h : HeaderM) : List Str → HRes
  | [] => .ok h
  | line :: rest =>
      match headerStep s h line with
      | .ok h2 => headerFold s h2 rest
      | .err e => .err e

/-- `impl FromStr for Header` (header.rs lines 102-123): split on `;` and
`try_fold` from `Header::default()`; `fresh` is the random trace id that
`TraceId::default()` generates. -/
def headerFromStr (fresh : TraceIdM) (s : Str) : HRes :=
  headerFold s (headerDefault fresh) (splitOnChar ';' s)

/-- The extension-pair loop of `impl Display for Header` (header.rs lines 134-136). -/
def extensionsDisplay : List (Str × Str) → Str
  | [] => []
  | (k, v) :: rest => ";".toList ++ k ++ "=".toList ++ v ++ extensionsDisplay rest

/-- `impl Display for Header` (header.rs lines 125-139). -/
def headerDisplay (h : HeaderM) : Str :=
  "Root=".toList ++ h.trace_id.display
    ++ (match h.parent_id with
        | some p => ";Parent=".toList ++ p.display
        | none => [])
    ++ (if h.sampling_decision ≠ .Unknown then ";".toList ++ samplingDisplay h.sampling_decision
        else [])
    ++ extensionsDisplay h.additional_data

/-- `Seconds` from src/types/time.rs: an f64 epoch timestamp. No claim inspects
its arithmetic; the embedding treats timestamp values as opaque clock readings. -/
structure SecondsM where
  val : Nat
deriving DecidableEq

/-- `Annotation` from src/types/types.rs. -/
inductive AnnotationM
  | String (s : Str)
  | Number (n : Nat)
  | Bool (b : Bool)
deriving DecidableEq

/-- `serde_json::Value` is an external library type; the segment only stores
values of it, so it is embedded as an opaque wrapper. -/
structure ValueM where
  raw : Str
deriving DecidableEq

/-- `StackFrame` from src/types/types.rs. -/
structure StackFrameM where
  path : Option Str
  line : Option Str
  label : Option Str
deriving DecidableEq

/-- `Exception` from src/types/types.rs. -/
structure ExceptionM where
  id : Str
  messages : Option Str
  remote : Option Bool
  truncated : Option Nat
  skipped : Option Nat
  cause : Option Str
  stack : List StackFrameM
deriving DecidableEq

/-- `Cause` from src/types/types.rs. -/
inductive CauseM
  | Name (s : Str)
  | Description (working_directory : Str) (paths : List Str) (exceptions : List ExceptionM)
deriving DecidableEq

/-- `Ecs` from src/types/types.rs. -/
structure EcsM where
  container : Option Str
deriving DecidableEq

/-- `Ec2` from src/types/types.rs. -/
structure Ec2M where
  instance_id : Option Str
  availability_zone : Option Str
deriving DecidableEq

/-- `ElasticBeanstalk` from src/types/types.rs. -/
structure ElasticBeanstalkM where
  environment_name : Option Str
  version_label : Option Str
  deployment_id : Option Nat
deriving DecidableEq

/-- `Tracing` from src/types/types.rs. -/
structure TracingM where
  sdk : Str
deriving DecidableEq

/-- `XRay` from src/types/types.rs. -/
structure XRayM where
  sdk_version : Option Str
deriving DecidableEq

/-- `Aws` from src/types/types.rs. -/
structure AwsM where
  account_id : Option Str
  ecs : Option EcsM
  ec2 : Option Ec2M
  elastic_beanstalk : Option ElasticBeanstalkM
  tracing : Option TracingM
  xray : Option XRayM
deriving DecidableEq

/-- `Service` from src/types/types.rs. -/
structure ServiceM where
  version : Option Str
deriving DecidableEq

/-- `Segment` from src/types/types.rs (lines 11-98), all 18 fields. -/
structure SegmentM where
  trace_id : TraceIdM
  id : SegmentIdM
  name : Str
  start_time : SecondsM
  end_time : Option SecondsM
  in_progress : Bool
  parent_id : Option SegmentIdM
  fault : Bool
  error : Bool
  throttle : Bool
  cause : Option CauseM
  origin : Option Str
  user : Option Str
  resource_arn : Option Str
  annotations : Option (List (Str × AnnotationM))
  metadata : Option (List (Str × ValueM))
  aws : Option AwsM
  service : Option ServiceM
deriving DecidableEq

/-- `Segment::default()` (derived `Default`): `TraceId::default()` and
`SegmentId::default()` generate fresh random ids and `Seconds::default()`
reads the clock; those three nondeterministic results are the parameters
`trace`, `ident`, `now`. Every other field takes its type's default:
empty string, `None`, `false`. -/
def segmentDefault (trace : TraceIdM) (ident : SegmentIdM) (now : SecondsM) : SegmentM :=
  { trace_id := trace, id := ident, name := [], start_time := now, end_time := none,
    in_progress := false, parent_id := none, fault := false, error := false, throttle := false,
    cause := none, origin := none, user := none, resource_arn := none, annotations := none,
    metadata := none, aws := none, service := none }

/-- The name validation in `Segment::begin` (types.rs lines 108-111):
truncate to the first 200 units when longer than 200. -/
def truncateName (name : Str) : Str :=
  if name.length > 200 then name.take 200 else name

/-- `Segment::begin` (types.rs lines 104-116): `Segment { name: valid_name,
..Segment::default() }`. -/
def segmentBegin (trace : TraceIdM) (ident : SegmentIdM) (now : SecondsM) (name : Str) : SegmentM :=
  { segmentDefault trace ident now with name := truncateName name }

/-- `Segment::end` (types.rs lines 119-123): `self.end_time = Some(Seconds::now());
self.in_progress = false;` — `now` is the clock reading. -/
def segmentEnd (now : SecondsM) (s : SegmentM) : SegmentM :=
  { s with end_time := some now, in_progress := false }

/-- Lowercase hex digit character, `[0-9a-f]`. -/
def isHexCh (c : Char) : Bool :=
  (('0' ≤ c) && (c ≤ '9')) || (('a' ≤ c) && (c ≤ 'f'))

/-- The regular expression `^1-[0-9a-f]\x7b8\x7d-[0-9a-f]\x7b24\x7d$` as a
decidable predicate on `Str`. -/
def traceRe (s : Str) : Bool :=
  match s with
  | '1' :: '-' :: rest =>
      ((rest.take 8).length == 8) && (rest.take 8).all isHexCh &&
      (match rest.drop 8 with
       | '-' :: tail => (tail.length == 24) && tail.all isHexCh
       | _ => false)
  | _ => false

/-- The regular expression `^[0-9a-f]\x7b16\x7d$` as a decidable predicate. -/
def segRe (s : Str) : Bool :=
  (s.length == 16) && s.all isHexCh

theorem splitOnChar_ne_nil (sep : Char) (s : Str) : splitOnChar sep s ≠ [] := by
  cases s with
  | nil => simp [splitOnChar]
  | cons c rest =>
      cases h : splitOnChar sep rest with
      | nil => simp [splitOnChar, h]
      | cons p more =>
          simp only [splitOnChar, h]
          split <;> simp

theorem splitOnChar_head_prefix (sep : Char) :
    ∀ (s : Str) (p : Str) (more : List Str), splitOnChar sep s = p :: more → p <+: s := by
  intro s
  induction s with
  | nil =>
      intro p more h
      simp only [splitOnChar] at h
      cases h
      exact List.nil_prefix
  | cons c rest ih =>
      intro p more h
      cases hs : splitOnChar sep rest with
      | nil => exact absurd hs (splitOnChar_ne_nil sep rest)
      | cons q more2 =>
          simp only [splitOnChar, hs] at h
          by_cases hc : c = sep
          · rw [if_pos hc] at h
            cases h
            exact List.nil_prefix
          · rw [if_neg hc] at h
            injection h with h1 h2
            subst h1
            rcases ih q more2 hs with ⟨t, ht⟩
            exact ⟨t, by rw [List.cons_append, ht]⟩

theorem mem_splitOnChar_infix (sep : Char) :
    ∀ (s : Str) (seg : Str), seg ∈ splitOnChar sep s → seg <:+: s := by
  intro s
  induction s with
  | nil =>
      intro seg h
      simp only [splitOnChar, List.mem_singleton] at h
      simp [h]
  | cons c rest ih =>
      intro seg h
      cases hs : splitOnChar sep rest with
      | nil => exact absurd hs (splitOnChar_ne_nil sep rest)
      | cons q more2 =>
          simp only [splitOnChar, hs] at h
          by_cases hc : c = sep
          · rw [if_pos hc] at h
            rcases List.mem_cons.mp h with h1 | h2
            · simp [h1]
            · exact List.infix_cons (ih seg (hs ▸ h2))
          · rw [if_neg hc] at h
            rcases List.mem_cons.mp h with h1 | h2
            · subst h1
              rcases splitOnChar_head_prefix sep rest q more2 hs with ⟨t, ht⟩
              exact List.IsPrefix.isInfix ⟨t, by rw [List.cons_append, ht]⟩
            · exact List.infix_cons (ih seg (hs ▸ List.mem_cons_of_mem q h2))

theorem findChar_eq_none (c : Char) :
    ∀ s : Str, findChar c s = none ↔ c ∉ s := by
  intro s
  induction s with
  | nil => simp [findChar]
  | cons x rest ih =>
      by_cases hx : x = c
      · subst hx
        simp [findChar]
      · simp [findChar, hx, ih, Ne.symm hx]

theorem startsWithPre_false_of_not_mem :
    ∀ (p line : Str) (c : Char), c ∈ p → c ∉ line → startsWithPre p line = false := by
  intro p
  induction p with
  | nil => intro line c hc; exact absurd hc (List.not_mem_nil c)
  | cons pc ps ih =>
      intro line c hc hm
      cases line with
      | nil => rfl
      | cons sc srest =>
          have hcs : c ≠ sc := fun he => hm (he ▸ List.mem_cons_self sc srest)
          have hms : c ∉ srest := fun he => hm (List.mem_cons_of_mem sc he)
          rcases List.mem_cons.mp hc with h1 | h2
          · have : (sc == pc) = false := by
              rw [beq_eq_false_iff_ne]
              exact fun he => hcs (h1 ▸ he.symm)
            simp [startsWithPre, this]
          · simp [startsWithPre, ih srest c h2 hms]

theorem headerStep_of_not_mem (s : Str) (h : HeaderM) (line : Str)
    (hm : ('=' : Char) ∉ line) : headerStep s h line = .err (noEqMsg s) := by
  have hr := startsWithPre_false_of_not_mem rootKey line '=' (by decide) hm
  have hp := startsWithPre_false_of_not_mem parentKey line '=' (by decide) hm
  have hsa := startsWithPre_false_of_not_mem sampledKey line '=' (by decide) hm
  have hse := startsWithPre_false_of_not_mem selfKey line '=' (by decide) hm
  have hf := (findChar_eq_none '=' line).mpr hm
  simp [headerStep, hr, hp, hsa, hse, hf]

theorem headerStep_err_msg {s : Str} {h : HeaderM} {line : Str} {e : Str}
    (hstep : headerStep s h line = .err e) : e = noEqMsg s := by
  unfold headerStep at hstep
  repeat' split at hstep
  all_goals simp_all

theorem headerFold_err (s : Str) :
    ∀ (ls : List Str) (h : HeaderM) (seg : Str), seg ∈ ls → ('=' : Char) ∉ seg →
      headerFold s h ls = .err (noEqMsg s) := by
  intro ls
  induction ls with
  | nil => intro h seg hmem; exact absurd hmem (List.not_mem_nil seg)
  | cons line rest ih =>
      intro h seg hmem hne
      rcases List.mem_cons.mp hmem with h1 | h2
      · subst h1
        simp only [headerFold, headerStep_of_not_mem s h seg hne]
      · simp only [headerFold]
        cases hstep : headerStep s h line with
        | ok h2s => exact ih h2s seg h2 hne
        | err e => rw [headerStep_err_msg hstep]

theorem headerFold_append (s : Str) :
    ∀ (l₁ l₂ : List Str) (h : HeaderM),
      headerFold s h (l₁ ++ l₂)
        = match headerFold s h l₁ with
          | .ok h2 => headerFold s h2 l₂
          | .err e => .err e := by
  intro l₁
  induction l₁ with
  | nil => intro l₂ h; simp [headerFold]
  | cons line rest ih =>
      intro l₂ h
      simp only [List.cons_append, headerFold]
      cases hstep : headerStep s h line with
      | ok h2 => exact ih l₂ h2
      | err e => rfl

theorem hexDigit_hex : ∀ m, m < 16 → isHexCh (hexDigit m) = true := by decide

theorem hexDigitsAux_all : ∀ (fuel n : Nat), (hexDigitsAux fuel n).all isHexCh = true := by
  intro fuel
  induction fuel with
  | zero => intro n; simp [hexDigitsAux]
  | succ fuel ih =>
      intro n
      simp only [hexDigitsAux]
      split
      · simp [List.all_cons, hexDigit_hex n (by assumption)]
      · simp [List.all_append, ih (n / 16), hexDigit_hex (n % 16) (Nat.mod_lt n (by decide))]

theorem hexDigitsAux_length_le :
    ∀ (fuel n k : Nat), 0 < k → n < 16 ^ k → n < fuel → (hexDigitsAux fuel n).length ≤ k := by
  intro fuel
  induction fuel with
  | zero => intro n k _ _ hf; exact absurd hf (Nat.not_lt_zero n)
  | succ fuel ih =>
      intro n k hk hnk hf
      simp only [hexDigitsAux]
      split
      · simpa using hk
      · rename_i h16
        push_neg at h16
        match k, hk with
        | 1, _ => exact absurd hnk (by simpa using h16)
        | k + 2, _ =>
            have hdiv : n / 16 < 16 ^ (k + 1) := by
              rw [Nat.div_lt_iff_lt_mul (by norm_num)]
              calc n < 16 ^ (k + 2) := hnk
                _ = 16 ^ (k + 1) * 16 := by ring
            have hfuel : n / 16 < fuel := by
              have h1 : n / 16 < n := Nat.div_lt_self (by omega) (by norm_num)
              omega
            have := ih (n / 16) (k + 1) (Nat.succ_pos k) hdiv hfuel
            simp only [List.length_append, List.length_cons, List.length_nil]
            omega

theorem lpad_length {w : Nat} {s : Str} (c : Char) (h : s.length ≤ w) :
    (lpad w c s).length = w := by
  simp only [lpad, List.length_append, List.length_replicate]
  omega

theorem lpad_all (w : Nat) (c : Char) (s : Str)
    (hc : isHexCh c = true) (hs : s.all isHexCh = true) :
    (lpad w c s).all isHexCh = true := by
  simp only [lpad, List.all_append, Bool.and_eq_true]
  refine ⟨?_, hs⟩
  rw [List.all_eq_true]
  intro x hx
  rw [List.eq_of_mem_replicate hx]
  exact hc

theorem byteHex_length {b : Nat} (hb : b < 256) : (lpad 2 '0' (natToHex b)).length = 2 :=
  lpad_length '0' (hexDigitsAux_length_le (b + 1) b 2 (by decide) hb (Nat.lt_succ_self b))

theorem bytesHex_length :
    ∀ bs : List Nat, (∀ b ∈ bs, b < 256) → (bytesHex bs).length = 2 * bs.length := by
  intro bs
  induction bs with
  | nil => intro _; simp [bytesHex]
  | cons b rest ih =>
      intro hb
      have h1 := byteHex_length (hb b (List.mem_cons_self b rest))
      have h2 := ih fun x hx => hb x (List.mem_cons_of_mem b hx)
      simp only [bytesHex, List.length_append, List.length_cons, h1, h2]
      ring

theorem bytesHex_all : ∀ bs : List Nat, (bytesHex bs).all isHexCh = true := by
  intro bs
  induction bs with
  | nil => simp [bytesHex]
  | cons b rest ih =>
      simp only [bytesHex, List.all_append, Bool.and_eq_true]
      exact ⟨lpad_all 2 '0' (natToHex b) (by decide) (hexDigitsAux_all (b + 1) b), ih⟩

theorem traceRe_parts {A B : Str} (hA : A.length = 8) (hAh : A.all isHexCh = true)
    (hB : B.length = 24) (hBh : B.all isHexCh = true) :
    traceRe ('1' :: '-' :: (A ++ '-' :: B)) = true := by
  simp only [traceRe]
  rw [List.take_left' hA, List.drop_left' hA]
  simp [hA, hAh, hB, hBh]

/-- Claim C1, counterexample: on the segment returned by `Segment::begin("test")`,
it is NOT the case that one of \x7bend_time present, in_progress = true\x7d holds:
`begin` builds the segment from `Segment::default()`, which leaves `end_time = None`
and `in_progress = false`, so neither holds. -/
theorem claim1_counterexample :
    ¬ (((segmentBegin (.Rendered []) (.Rendered []) ⟨0⟩ "test".toList).end_time ≠ none) ∨
       (segmentBegin (.Rendered []) (.Rendered []) ⟨0⟩ "test".toList).in_progress = true) := by
  decide

/-- Claim C1, amended: after `Segment::begin(name)`, `end_time` is absent AND
`in_progress` is false (begin marks neither completion state); after
`Segment::end()`, `in_progress` is false and `end_time` is present — never both. -/
theorem claim1_amended :
    ∀ (trace : TraceIdM) (ident : SegmentIdM) (now : SecondsM) (name : Str)
      (s : SegmentM) (now2 : SecondsM),
      (segmentBegin trace ident now name).end_time = none ∧
      (segmentBegin trace ident now name).in_progress = false ∧
      (segmentEnd now2 s).in_progress = false ∧
      (segmentEnd now2 s).end_time = some now2 :=
  fun _ _ _ _ _ _ => ⟨rfl, rfl, rfl, rfl⟩

/-- Claim C2: `Segment::begin` truncates a name longer than 200 units to exactly
its first 200 units, and stores a name of at most 200 units unchanged. -/
theorem claim2_name_truncation :
    ∀ (trace : TraceIdM) (ident : SegmentIdM) (now : SecondsM) (name : Str),
      (200 < name.length →
        (segmentBegin trace ident now name).name = name.take 200 ∧
        (segmentBegin trace ident now name).name.length = 200) ∧
      (name.length ≤ 200 → (segmentBegin trace ident now name).name = name) := by
  intro trace ident now name
  constructor
  · intro hlong
    constructor
    · show (if name.length > 200 then name.take 200 else name) = name.take 200
      exact if_pos hlong
    · show (if name.length > 200 then name.take 200 else name).length = 200
      rw [if_pos hlong, List.length_take]
      omega
  · intro hshort
    show (if name.length > 200 then name.take 200 else name) = name
    exact if_neg (by omega)

/-- Witness for claim C2 at a 250-character name and a 3-character name. -/
theorem claim2_witness :
    (segmentBegin (.Rendered []) (.Rendered []) ⟨0⟩ (List.replicate 250 'a')).name.length = 200 ∧
    (segmentBegin (.Rendered []) (.Rendered []) ⟨0⟩ "abc".toList).name = "abc".toList :=
  ⟨((claim2_name_truncation (.Rendered []) (.Rendered []) ⟨0⟩ _).1 (by decide)).2,
   (claim2_name_truncation (.Rendered []) (.Rendered []) ⟨0⟩ _).2 (by decide)⟩

/-- Claim C3: an input containing a `;`-delimited segment with no `=` that starts
with none of the reserved prefixes makes `Header::from_str` return the
malformed-field error, and the offending segment's text occurs in the message. -/
theorem claim3_missing_eq_error :
    ∀ (fresh : TraceIdM) (s seg : Str),
      seg ∈ splitOnChar ';' s →
      ('=' : Char) ∉ seg →
      startsWithPre rootKey seg = false →
      startsWithPre parentKey seg = false →
      startsWithPre sampledKey seg = false →
      startsWithPre selfKey seg = false →
      headerFromStr fresh s = .err (noEqMsg s) ∧ seg <:+: noEqMsg s := by
  intro fresh s seg hmem hne _ _ _ _
  refine ⟨headerFold_err s (splitOnChar ';' s) (headerDefault fresh) seg hmem hne, ?_⟩
  have h1 : seg <:+: s := mem_splitOnChar_infix ';' s seg hmem
  have h2 : s <:+: noEqMsg s :=
    ⟨"invalid key=value: no `=` found in `".toList, "`".toList, rfl⟩
  exact h1.trans h2

/-- Witness for claim C3 on the input `"Root=a;Foo"` with offending segment `"Foo"`. -/
theorem claim3_witness :
    headerFromStr (.Rendered []) "Root=a;Foo".toList = .err (noEqMsg "Root=a;Foo".toList) ∧
    "Foo".toList <:+: noEqMsg "Root=a;Foo".toList :=
  claim3_missing_eq_error (.Rendered []) "Root=a;Foo".toList "Foo".toList
    (by decide) (by decide) (by decide) (by decide) (by decide) (by decide)

/-- Claim C4: parsing the reference header string yields trace id text
`1-5759e988-bd862e3fe1be46a994272793`, parent id text `53995c3f42cd8ad8`,
decision Sampled, and formatting the result reproduces the input exactly. -/
theorem claim4_roundtrip :
    (∀ fresh : TraceIdM,
      headerFromStr fresh
          "Root=1-5759e988-bd862e3fe1be46a994272793;Parent=53995c3f42cd8ad8;Sampled=1".toList
        = .ok { trace_id := .Rendered "1-5759e988-bd862e3fe1be46a994272793".toList,
                parent_id := some (.Rendered "53995c3f42cd8ad8".toList),
                sampling_decision := .Sampled, additional_data := [] }) ∧
    TraceIdM.display (.Rendered "1-5759e988-bd862e3fe1be46a994272793".toList)
      = "1-5759e988-bd862e3fe1be46a994272793".toList ∧
    SegmentIdM.display (.Rendered "53995c3f42cd8ad8".toList) = "53995c3f42cd8ad8".toList ∧
    headerDisplay
        { trace_id := .Rendered "1-5759e988-bd862e3fe1be46a994272793".toList,
          parent_id := some (.Rendered "53995c3f42cd8ad8".toList),
          sampling_decision := .Sampled, additional_data := [] }
      = "Root=1-5759e988-bd862e3fe1be46a994272793;Parent=53995c3f42cd8ad8;Sampled=1".toList :=
  ⟨fun _ => rfl, rfl, rfl, rfl⟩

/-- Claim C5: `Display` for `Header` emits `Root=<trace-id>` first, then
`;Parent=<id>` only when a parent is present, then `;<decision-code>` only when
the decision is not Unknown, then each extension pair as `;<key>=<value>`;
a header with only a trace id formats to exactly `Root=<trace-id>`. -/
theorem claim5_display_format :
    (∀ h : HeaderM,
      headerDisplay h =
        "Root=".toList ++ h.trace_id.display
          ++ (match h.parent_id with
              | some p => ";Parent=".toList ++ p.display
              | none => [])
          ++ (if h.sampling_decision ≠ .Unknown then
                ";".toList ++ samplingDisplay h.sampling_decision
              else [])
          ++ extensionsDisplay h.additional_data) ∧
    (∀ t : Str,
      headerDisplay
          { trace_id := .Rendered t, parent_id := none,
            sampling_decision := .Unknown, additional_data := [] }
        = "Root=".toList ++ t) ∧
    headerDisplay
        { trace_id := .Rendered "T".toList, parent_id := some (.Rendered "P".toList),
          sampling_decision := .Sampled, additional_data := [("k".toList, "v".toList)] }
      = "Root=T;Parent=P;Sampled=1;k=v".toList := by
  refine ⟨fun h => rfl, fun t => ?_, by decide⟩
  simp [headerDisplay, TraceIdM.display, extensionsDisplay]

/-- Claim C6: a `;`-delimited segment beginning with `Self=` is recognized and
discarded by the parser: the fold step returns the header unchanged (no error,
nothing stored), and consequently nothing from it is re-emitted by `Display`. -/
theorem claim6_self_discarded :
    (∀ (s : Str) (h : HeaderM) (rest : Str),
      headerStep s h ("Self=".toList ++ rest) = .ok h) ∧
    headerFromStr (.Rendered []) "Root=x;Self=abc".toList
      = .ok { trace_id := .Rendered "x".toList, parent_id := none,
              sampling_decision := .Unknown, additional_data := [] } ∧
    headerDisplay
        { trace_id := TraceIdM.Rendered "x".toList, parent_id := none,
          sampling_decision := .Unknown, additional_data := [] }
      = "Root=x".toList :=
  ⟨fun _ _ _ => rfl, by decide, by decide⟩

/-- Claim C7: the `SamplingDecision` codec encodes Sampled/NotSampled/Requested
to exactly `Sampled=1`/`Sampled=0`/`Sampled=?` and Unknown to the empty string;
decoding is the exact reverse match, and any other string decodes to Unknown. -/
theorem claim7_sampling_codec :
    samplingDisplay .Sampled = "Sampled=1".toList ∧
    samplingDisplay .NotSampled = "Sampled=0".toList ∧
    samplingDisplay .Requested = "Sampled=?".toList ∧
    samplingDisplay .Unknown = [] ∧
    samplingFrom "Sampled=1".toList = .Sampled ∧
    samplingFrom "Sampled=0".toList = .NotSampled ∧
    samplingFrom "Sampled=?".toList = .Requested ∧
    (∀ v : Str, v ≠ "Sampled=1".toList → v ≠ "Sampled=0".toList → v ≠ "Sampled=?".toList →
      samplingFrom v = .Unknown) := by
  refine ⟨rfl, rfl, rfl, rfl, by decide, by decide, by decide, ?_⟩
  intro v h1 h2 h3
  unfold samplingFrom
  rw [if_neg h1, if_neg h2, if_neg h3]

/-- Witness for claim C7 on a string that is none of the three codes. -/
theorem claim7_witness : samplingFrom "bogus".toList = .Unknown :=
  claim7_sampling_codec.2.2.2.2.2.2.2 "bogus".toList (by decide) (by decide) (by decide)

/-- Claim C8, counterexample: for the epoch-seconds value 2^32 = 4294967296
(which needs nine hex digits, `{:08x}` being only a minimum width), the display
of a Generated TraceId does not match `^1-[0-9a-f]\x7b8\x7d-[0-9a-f]\x7b24\x7d$`,
so the claim is false for arbitrary epoch-seconds values. -/
theorem claim8_counterexample :
    traceRe (TraceIdM.display (.New 4294967296 (List.replicate 12 0))) = false := by
  decide

/-- Claim C8, amended: for every epoch-seconds value that fits in 8 hex digits
(i.e. below 16^8) and any 12 random bytes, the Generated TraceId displays as
`^1-[0-9a-f]\x7b8\x7d-[0-9a-f]\x7b24\x7d$`; for any 8 random bytes, the
Generated SegmentId displays as `^[0-9a-f]\x7b16\x7d$`. -/
theorem claim8_amended :
    (∀ (secs : Nat) (bytes : List Nat), secs < 16 ^ 8 → bytes.length = 12 →
      (∀ b ∈ bytes, b < 256) → traceRe (TraceIdM.display (.New secs bytes)) = true) ∧
    (∀ bytes : List Nat, bytes.length = 8 →
      (∀ b ∈ bytes, b < 256) → segRe (SegmentIdM.display (.New bytes)) = true) := by
  constructor
  · intro secs bytes hs hlen hb
    have hA : (lpad 8 '0' (natToHex secs)).length = 8 :=
      lpad_length '0' (hexDigitsAux_length_le (secs + 1) secs 8 (by decide) hs (Nat.lt_succ_self secs))
    have hAh : (lpad 8 '0' (natToHex secs)).all isHexCh = true :=
      lpad_all 8 '0' (natToHex secs) (by decide) (hexDigitsAux_all (secs + 1) secs)
    have hB : (bytesHex bytes).length = 24 := by rw [bytesHex_length bytes hb, hlen]
    have hBh : (bytesHex bytes).all isHexCh = true := bytesHex_all bytes
    have hshape : TraceIdM.display (.New secs bytes)
        = '1' :: '-' :: (lpad 8 '0' (natToHex secs) ++ '-' :: bytesHex bytes) := by
      show (("1-".toList ++ lpad 8 '0' (natToHex secs)) ++ "-".toList) ++ bytesHex bytes = _
      rw [List.append_assoc, List.append_assoc]
      rfl
    rw [hshape]
    exact traceRe_parts hA hAh hB hBh
  · intro bytes hlen hb
    have h1 : (bytesHex bytes).length = 16 := by rw [bytesHex_length bytes hb, hlen]
    simp [segRe, SegmentIdM.display, h1, bytesHex_all bytes]

/-- Witness for claim C8 at a concrete timestamp and concrete byte values. -/
theorem claim8_witness :
    traceRe (TraceIdM.display (.New 1462919988 (List.replicate 12 255))) = true ∧
    segRe (SegmentIdM.display (.New (List.replicate 8 171))) = true :=
  ⟨claim8_amended.1 1462919988 (List.replicate 12 255) (by decide) (by decide) (by decide),
   claim8_amended.2 (List.replicate 8 171) (by decide) (by decide)⟩

/-- Claim C9: `Header::from_str` starts from a default header (fresh trace id,
no parent, Unknown decision, empty extension map) and folds left-to-right over
the `;`-separated segments, so the last `Root=`/`Parent=`/`Sampled=` segment
determines the corresponding field. -/
theorem claim9_fold_last_wins :
    (∀ fresh : TraceIdM,
      headerFromStr fresh "Sampled=1".toList
        = .ok { trace_id := fresh, parent_id := none,
                sampling_decision := .Sampled, additional_data := [] }) ∧
    (∀ (s : Str) (h h2 : HeaderM) (ls : List Str) (t : Str),
      headerFold s h ls = .ok h2 →
      headerFold s h (ls ++ [rootKey ++ t]) = .ok { h2 with trace_id := .Rendered t }) ∧
    (∀ (s : Str) (h h2 : HeaderM) (ls : List Str) (t : Str),
      headerFold s h ls = .ok h2 →
      headerFold s h (ls ++ [parentKey ++ t])
        = .ok { h2 with parent_id := some (.Rendered t) }) ∧
    (∀ (s : Str) (h h2 : HeaderM) (ls : List Str) (t : Str),
      headerFold s h ls = .ok h2 →
      headerFold s h (ls ++ [sampledKey ++ t])
        = .ok { h2 with sampling_decision := samplingFrom (sampledKey ++ t) }) ∧
    (∀ fresh : TraceIdM,
      headerFromStr fresh "Root=a;Root=b;Parent=c;Parent=d;Sampled=0;Sampled=1".toList
        = .ok { trace_id := .Rendered "b".toList, parent_id := some (.Rendered "d".toList),
                sampling_decision := .Sampled, additional_data := [] }) := by
  refine ⟨fun fresh => rfl, ?_, ?_, ?_, fun fresh => rfl⟩
  · intro s h h2 ls t hok
    rw [headerFold_append s ls [rootKey ++ t] h, hok]
    rfl
  · intro s h h2 ls t hok
    rw [headerFold_append s ls [parentKey ++ t] h, hok]
    rfl
  · intro s h h2 ls t hok
    rw [headerFold_append s ls [sampledKey ++ t] h, hok]
    rfl

/-- Witness for claim C9: a later `Root=` segment overwrites the trace id left
by an earlier `Parent=` segment fold. -/
theorem claim9_witness :
    headerFold [] (headerDefault (.Rendered []))
        (["Parent=p".toList] ++ [rootKey ++ "z".toList])
      = .ok { trace_id := .Rendered "z".toList, parent_id := some (.Rendered "p".toList),
              sampling_decision := .Unknown, additional_data := [] } :=
  claim9_fold_last_wins.2.1 [] (headerDefault (.Rendered []))
    { trace_id := .Rendered [], parent_id := some (.Rendered "p".toList),
      sampling_decision := .Unknown, additional_data := [] }
    ["Parent=p".toList] "z".toList (by decide)

/-- Claim C10: `Segment::end` sets `end_time = Some(now)` and
`in_progress = false` and leaves every other field of the segment unchanged;
a second call changes only `end_time`. -/
theorem claim10_end_frame :
    ∀ (s : SegmentM) (now now2 : SecondsM),
      (segmentEnd now s).end_time = some now ∧
      (segmentEnd now s).in_progress = false ∧
      (segmentEnd now s).trace_id = s.trace_id ∧
      (segmentEnd now s).id = s.id ∧
      (segmentEnd now s).name = s.name ∧
      (segmentEnd now s).start_time = s.start_time ∧
      (segmentEnd now s).parent_id = s.parent_id ∧
      (segmentEnd now s).fault = s.fault ∧
      (segmentEnd now s).error = s.error ∧
      (segmentEnd now s).throttle = s.throttle ∧
      (segmentEnd now s).cause = s.cause ∧
      (segmentEnd now s).origin = s.origin ∧
      (segmentEnd now s).user = s.user ∧
      (segmentEnd now s).resource_arn = s.resource_arn ∧
      (segmentEnd now s).annotations = s.annotations ∧
      (segmentEnd now s).metadata = s.metadata ∧
      (segmentEnd now s).aws = s.aws ∧
      (segmentEnd now s).service = s.service ∧
      segmentEnd now2 (segmentEnd now s) = { segmentEnd now s with end_time := some now2 } :=
  fun _ _ _ =>
    ⟨rfl, rfl, rfl, rfl, rfl, rfl, rfl, rfl, rfl, rfl, rfl, rfl, rfl, rfl, rfl, rfl, rfl, rfl, rfl⟩

